import Mathlib

/-! Verification of the LearnIn30Days progress tracker.

The subject is the gamification core of the backend: the handler
`complete_day` in src/main.py (the RecordCompletion operation), which reads
a User document and a Progress document, derives the new streak, points,
longest streak, current day and completed-day list, and writes the two
documents back.

Modelling choices:
* Calendar dates are modelled as integers (a day number); Python's
  `(today - last_date).days` on two `date` values is their exact whole-day
  difference, which becomes plain integer subtraction.
* The User fields `points`, `streak` and `longest_streak` are declared in
  src/schemas.py as integers with `ge=0`, so they are modelled as `Nat`.
* `day` in the request payload is an unconstrained `int`, so it is `Int`;
  likewise `current_day` and the entries of `completed_days`.
* Python's `sorted` is modelled by `List.insertionSort` with the `≤` order
  (both are comparison sorts producing a `≤`-sorted permutation, which is
  all the proofs use).
* The document store is modelled by the list of writes the handler issues,
  in order: `create_document("progress", ...)` is an insert and the two
  `update_one` calls are updates.
-/

/-- Gamification stats of a User document, as read by `complete_day` via
`user.get("streak", 0)` etc.  src/schemas.py declares all three fields with
`ge=0`, hence `Nat`. -/
structure UserStats where
  points : Nat
  streak : Nat
  longest_streak : Nat
  deriving Repr, DecidableEq

/-- A Progress document's fields used by `complete_day`:
`current_day`, `completed_days`, `last_completed_date`. -/
structure ProgressRec where
  current_day : Int
  completed_days : List Int
  last_completed_date : Option Int
  deriving Repr, DecidableEq

/-- The Progress record created lazily by `complete_day` (and by
`get_progress`) when none exists for the (user_email, challenge_slug) pair:
`current_day = 1`, empty `completed_days`, no `last_completed_date`
(defaults in src/schemas.py, class Progress). -/
def freshProgress : ProgressRec :=
  { current_day := 1, completed_days := [], last_completed_date := none }

/-- The pure state transition computed by `complete_day`
(src/main.py lines 210-248) once the User and Progress documents are in
hand: from previous user stats, previous progress record, today's date and
the input day, produce the new user stats and new progress record. -/
def completeDayPure (user : UserStats) (prog : ProgressRec) (today day : Int) :
    UserStats × ProgressRec :=
  -- completed = prog.get("completed_days", []); append day if absent
  let completed :=
    if day ∈ prog.completed_days then prog.completed_days
    else prog.completed_days ++ [day]
  -- Streak logic
  let streak :=
    match prog.last_completed_date with
    | none => 1
    | some lastDate =>
      let delta := today - lastDate
      if delta = 1 then user.streak + 1
      else if delta = 0 then max 1 user.streak
      else 1
  let longest := max user.longest_streak streak
  -- Points: +10 per day completed, +5 bonus for 5-day streaks
  let points := user.points + 10 + (if streak % 5 = 0 then 5 else 0)
  -- current_day = max(prog.get("current_day", 1), day + 1)
  let currentDay := max prog.current_day (day + 1)
  ({ points := points, streak := streak, longest_streak := longest },
   { current_day := currentDay,
     completed_days := List.insertionSort (· ≤ ·) completed,
     last_completed_date := some today })

/-- One write issued to the document store by `complete_day`. -/
inductive StoreWrite where
  | insertProgress : ProgressRec → StoreWrite
  | updateProgress : ProgressRec → StoreWrite
  | updateUser : UserStats → StoreWrite
  deriving Repr, DecidableEq

/-- The full `complete_day` handler (src/main.py lines 196-259): the User
lookup may fail with 404 "User not found" before anything is written; a
missing Progress record is created fresh (one insert) and then the progress
and user updates are issued.  Returns the handler's outcome together with
the ordered list of store writes it performed. -/
def completeDay (user : Option UserStats) (prog : Option ProgressRec)
    (today day : Int) :
    Except String (UserStats × ProgressRec) × List StoreWrite :=
  match user with
  | none => (.error "User not found", [])
  | some u =>
    let createWrites :=
      match prog with
      | none => [StoreWrite.insertProgress freshProgress]
      | some _ => []
    let p := prog.getD freshProgress
    let r := completeDayPure u p today day
    (.ok r, createWrites ++ [.updateProgress r.2, .updateUser r.1])

/-- Iterating the pure transition over a list of (today, day) calls for the
same (user, challenge) pair. -/
def runCalls (u : UserStats) (p : ProgressRec) :
    List (Int × Int) → UserStats × ProgressRec
  | [] => (u, p)
  | c :: rest => runCalls (completeDayPure u p c.1 c.2).1 (completeDayPure u p c.1 c.2).2 rest

example :
    completeDayPure ⟨0, 0, 0⟩ freshProgress 100 1
      = (⟨10, 1, 1⟩, ⟨2, [1], some 100⟩) := by decide

example :
    completeDayPure ⟨40, 4, 4⟩ ⟨5, [1, 2, 3, 4], some 99⟩ 100 5
      = (⟨55, 5, 5⟩, ⟨6, [1, 2, 3, 4, 5], some 100⟩) := by decide

/-! Helper lemmas about the transition. -/

theorem completeDayPure_currentDay (u : UserStats) (p : ProgressRec) (today day : Int) :
    (completeDayPure u p today day).2.current_day = max p.current_day (day + 1) := rfl

theorem completeDayPure_completedDays (u : UserStats) (p : ProgressRec) (today day : Int) :
    (completeDayPure u p today day).2.completed_days =
      List.insertionSort (· ≤ ·)
        (if day ∈ p.completed_days then p.completed_days
         else p.completed_days ++ [day]) := rfl

theorem completeDayPure_points_eq (u : UserStats) (p : ProgressRec) (today day : Int) :
    (completeDayPure u p today day).1.points =
      u.points + 10 +
        (if (completeDayPure u p today day).1.streak % 5 = 0 then 5 else 0) := rfl

theorem completeDayPure_streak_none (u : UserStats) (p : ProgressRec) (today day : Int)
    (h : p.last_completed_date = none) :
    (completeDayPure u p today day).1.streak = 1 := by
  simp [completeDayPure, h]

theorem completeDayPure_streak_some (u : UserStats) (p : ProgressRec) (today day lastDate : Int)
    (h : p.last_completed_date = some lastDate) :
    (completeDayPure u p today day).1.streak =
      (if today - lastDate = 1 then u.streak + 1
       else if today - lastDate = 0 then max 1 u.streak
       else 1) := by
  simp [completeDayPure, h]

theorem runCalls_cons (u : UserStats) (p : ProgressRec) (c : Int × Int)
    (rest : List (Int × Int)) :
    runCalls u p (c :: rest) =
      runCalls (completeDayPure u p c.1 c.2).1 (completeDayPure u p c.1 c.2).2 rest := rfl

/-! Claim theorems. -/

/-- Claim C1: streak derivation of RecordCompletion.  If the Progress record
has no last_completed_date the new streak is 1; if the whole-day difference
today - last_completed_date equals 1 the new streak is the previous streak
plus 1; and if that difference is greater than 1 or negative the new streak
is 1. -/
theorem streak_derivation (u : UserStats) (p : ProgressRec) (today day : Int) :
    (p.last_completed_date = none → (completeDayPure u p today day).1.streak = 1) ∧
    ∀ lastDate, p.last_completed_date = some lastDate →
      ((today - lastDate = 1 →
          (completeDayPure u p today day).1.streak = u.streak + 1) ∧
       (1 < today - lastDate ∨ today - lastDate < 0 →
          (completeDayPure u p today day).1.streak = 1)) := by
  refine ⟨fun h => completeDayPure_streak_none u p today day h, ?_⟩
  intro lastDate h
  rw [completeDayPure_streak_some u p today day lastDate h]
  constructor
  · intro hd
    simp [hd]
  · intro hd
    have h1 : ¬(today - lastDate = 1) := by omega
    have h0 : ¬(today - lastDate = 0) := by omega
    simp [h1, h0]

/-- Witness for C1: the three branches at concrete states (no previous date;
previous date yesterday; previous date three days ago). -/
theorem streak_derivation_witness :
    (completeDayPure ⟨0, 3, 3⟩ ⟨1, [], none⟩ 100 1).1.streak = 1 ∧
    (completeDayPure ⟨0, 3, 3⟩ ⟨1, [], some 99⟩ 100 1).1.streak =
      (⟨0, 3, 3⟩ : UserStats).streak + 1 ∧
    (completeDayPure ⟨0, 3, 3⟩ ⟨1, [], some 97⟩ 100 1).1.streak = 1 :=
  ⟨(streak_derivation ⟨0, 3, 3⟩ ⟨1, [], none⟩ 100 1).1 rfl,
   ((streak_derivation ⟨0, 3, 3⟩ ⟨1, [], some 99⟩ 100 1).2 99 rfl).1 (by decide),
   ((streak_derivation ⟨0, 3, 3⟩ ⟨1, [], some 97⟩ 100 1).2 97 rfl).2 (by decide)⟩

/-- Claim C2: a single RecordCompletion call increases the user's points by
exactly 15 when the newly derived streak is a multiple of 5 and by exactly
10 otherwise, for every prior state and every input day. -/
theorem points_award (u : UserStats) (p : ProgressRec) (today day : Int) :
    (completeDayPure u p today day).1.points =
      u.points +
        (if (completeDayPure u p today day).1.streak % 5 = 0 then 15 else 10) := by
  rw [completeDayPure_points_eq]
  by_cases hc : (completeDayPure u p today day).1.streak % 5 = 0 <;> simp [hc]

/-- Claim C10 (helper): every branch of the streak derivation yields a value
of at least 1. -/
theorem completeDayPure_streak_pos (u : UserStats) (p : ProgressRec) (today day : Int) :
    1 ≤ (completeDayPure u p today day).1.streak := by
  cases h : p.last_completed_date with
  | none => rw [completeDayPure_streak_none u p today day h]
  | some lastDate =>
    rw [completeDayPure_streak_some u p today day lastDate h]
    split
    · omega
    · split <;> omega

/-- Claim C10: after every successful RecordCompletion call the user's
streak is at least 1, and hence so is the longest streak, regardless of the
stored previous values. -/
theorem streak_at_least_one (user : Option UserStats) (prog : Option ProgressRec)
    (today day : Int) (r : UserStats × ProgressRec)
    (h : (completeDay user prog today day).1 = Except.ok r) :
    1 ≤ r.1.streak ∧ 1 ≤ r.1.longest_streak := by
  cases user with
  | none => exact absurd h (by simp [completeDay])
  | some u =>
    have hr : r = completeDayPure u (prog.getD freshProgress) today day := by
      simpa [completeDay] using h.symm
    subst hr
    refine ⟨completeDayPure_streak_pos u _ today day, ?_⟩
    have hs := completeDayPure_streak_pos u (prog.getD freshProgress) today day
    calc (1 : Nat) ≤ (completeDayPure u (prog.getD freshProgress) today day).1.streak := hs
      _ ≤ (completeDayPure u (prog.getD freshProgress) today day).1.longest_streak :=
          le_max_right _ _

/-- Witness for C10 at a concrete successful call. -/
theorem streak_at_least_one_witness :
    1 ≤ (completeDayPure ⟨0, 0, 0⟩ freshProgress 100 1).1.streak ∧
    1 ≤ (completeDayPure ⟨0, 0, 0⟩ freshProgress 100 1).1.longest_streak :=
  streak_at_least_one (some ⟨0, 0, 0⟩) (some freshProgress) 100 1
    (completeDayPure ⟨0, 0, 0⟩ freshProgress 100 1) rfl

/-- Counterexample to C3 as stated: a user with streak 5 and
last_completed_date equal to today repeats a completion; the streak is
unchanged at 5, but the points increase by 15 (the +5 multiple-of-5 bonus
still fires on the same-day repeat), not by exactly 10. -/
theorem sameDay_repeat_counterexample :
    ((completeDayPure ⟨20, 5, 5⟩ ⟨6, [1, 2, 3, 4, 5], some 100⟩ 100 3).1.streak = 5) ∧
    ¬((completeDayPure ⟨20, 5, 5⟩ ⟨6, [1, 2, 3, 4, 5], some 100⟩ 100 3).1.points
        = 20 + 10) := by
  decide

/-- Claim C3 (amended): when the Progress record's last_completed_date
equals today and the previous streak S is at least 1, any RecordCompletion
call leaves the streak unchanged at S, and the points increase by 10 —
unless S is a multiple of 5, in which case they increase by 15. -/
theorem sameDay_repeat (u : UserStats) (p : ProgressRec) (today day : Int)
    (hlast : p.last_completed_date = some today) (hstreak : 1 ≤ u.streak) :
    (completeDayPure u p today day).1.streak = u.streak ∧
    (completeDayPure u p today day).1.points =
      u.points + (if u.streak % 5 = 0 then 15 else 10) := by
  have hs : (completeDayPure u p today day).1.streak = u.streak := by
    rw [completeDayPure_streak_some u p today day today hlast]
    simp
    omega
  refine ⟨hs, ?_⟩
  rw [completeDayPure_points_eq, hs]
  by_cases hc : u.streak % 5 = 0 <;> simp [hc]

/-- Witness for C3 (amended) at a concrete same-day repeat with streak 5. -/
theorem sameDay_repeat_witness :
    (completeDayPure ⟨20, 5, 5⟩ ⟨6, [1, 2, 3, 4, 5], some 100⟩ 100 3).1.streak =
      (⟨20, 5, 5⟩ : UserStats).streak ∧
    (completeDayPure ⟨20, 5, 5⟩ ⟨6, [1, 2, 3, 4, 5], some 100⟩ 100 3).1.points =
      (⟨20, 5, 5⟩ : UserStats).points +
        (if (⟨20, 5, 5⟩ : UserStats).streak % 5 = 0 then 15 else 10) :=
  sameDay_repeat ⟨20, 5, 5⟩ ⟨6, [1, 2, 3, 4, 5], some 100⟩ 100 3 rfl (by decide)

/-- Claim C4 (helper): current_day never decreases across a sequence of
completion calls. -/
theorem runCalls_currentDay_le (calls : List (Int × Int)) :
    ∀ (u : UserStats) (p : ProgressRec),
      p.current_day ≤ (runCalls u p calls).2.current_day := by
  induction calls with
  | nil => intro u p; exact le_refl _
  | cons c rest ih =>
    intro u p
    rw [runCalls_cons]
    refine le_trans ?_ (ih (completeDayPure u p c.1 c.2).1 (completeDayPure u p c.1 c.2).2)
    rw [completeDayPure_currentDay]
    exact le_max_left _ _

/-- Claim C4: after every RecordCompletion call, current_day equals
max(previous current_day, day + 1); consequently across any sequence of
calls for the same (user, challenge) pair, current_day never decreases. -/
theorem currentDay_max_monotone (u : UserStats) (p : ProgressRec) (today day : Int) :
    (completeDayPure u p today day).2.current_day = max p.current_day (day + 1) ∧
    ∀ calls : List (Int × Int),
      p.current_day ≤ (runCalls u p calls).2.current_day :=
  ⟨rfl, fun calls => runCalls_currentDay_le calls u p⟩

/-- Claim C6: after every RecordCompletion call the user's longest_streak
equals max(previous longest_streak, newly derived streak); in particular it
never decreases. -/
theorem longest_streak_max (u : UserStats) (p : ProgressRec) (today day : Int) :
    (completeDayPure u p today day).1.longest_streak =
      max u.longest_streak (completeDayPure u p today day).1.streak ∧
    u.longest_streak ≤ (completeDayPure u p today day).1.longest_streak :=
  ⟨rfl,
   show u.longest_streak ≤ max u.longest_streak (completeDayPure u p today day).1.streak
     from le_max_left _ _⟩

/-- Claim C5 (helper): one call keeps completed_days strictly increasing
and makes it the sorted union of the previous list with the input day. -/
theorem completedDays_step (u : UserStats) (p : ProgressRec) (today day : Int)
    (h : p.completed_days.Sorted (· < ·)) :
    (completeDayPure u p today day).2.completed_days.Sorted (· < ·) ∧
    ∀ x, x ∈ (completeDayPure u p today day).2.completed_days ↔
      (x ∈ p.completed_days ∨ x = day) := by
  rw [completeDayPure_completedDays]
  have hnodupL :
      (if day ∈ p.completed_days then p.completed_days
       else p.completed_days ++ [day]).Nodup := by
    split
    · exact h.nodup
    · rename_i hnot
      simp [List.nodup_append, h.nodup, hnot]
  have hperm :=
    List.perm_insertionSort (· ≤ ·)
      (if day ∈ p.completed_days then p.completed_days
       else p.completed_days ++ [day])
  have hsortedLe :=
    List.sorted_insertionSort (α := Int) (· ≤ ·)
      (if day ∈ p.completed_days then p.completed_days
       else p.completed_days ++ [day])
  refine ⟨hsortedLe.lt_of_le (hperm.nodup_iff.mpr hnodupL), ?_⟩
  intro x
  rw [hperm.mem_iff]
  split
  · rename_i hin
    constructor
    · exact fun hx => Or.inl hx
    · rintro (hx | hx)
      · exact hx
      · exact hx ▸ hin
  · simp

/-- Claim C5 (helper): iterating calls preserves strict sortedness of
completed_days. -/
theorem runCalls_sorted (calls : List (Int × Int)) :
    ∀ (u : UserStats) (p : ProgressRec),
      p.completed_days.Sorted (· < ·) →
      (runCalls u p calls).2.completed_days.Sorted (· < ·) := by
  induction calls with
  | nil => intro u p h; exact h
  | cons c rest ih =>
    intro u p h
    rw [runCalls_cons]
    exact ih _ _ (completedDays_step u p c.1 c.2 h).1

/-- Claim C5: when the previous completed_days list is strictly increasing
(as it is for a fresh record and stays thereafter), a RecordCompletion call
produces a strictly increasing duplicate-free list whose members are
exactly the previous members together with the input day; and every
sequence of calls starting from a fresh Progress record keeps
completed_days strictly increasing. -/
theorem completedDays_strictly_increasing (u : UserStats) (p : ProgressRec)
    (today day : Int) (h : p.completed_days.Sorted (· < ·)) :
    (completeDayPure u p today day).2.completed_days.Sorted (· < ·) ∧
    (∀ x, x ∈ (completeDayPure u p today day).2.completed_days ↔
      (x ∈ p.completed_days ∨ x = day)) ∧
    ∀ calls : List (Int × Int),
      (runCalls u freshProgress calls).2.completed_days.Sorted (· < ·) :=
  ⟨(completedDays_step u p today day h).1,
   (completedDays_step u p today day h).2,
   fun calls => runCalls_sorted calls u freshProgress (by simp [freshProgress])⟩

/-- Witness for C5: a concrete out-of-order completion (day 2 after days 1
and 3) and a concrete three-call sequence. -/
theorem completedDays_strictly_increasing_witness :
    (completeDayPure ⟨0, 0, 0⟩ ⟨4, [1, 3], some 99⟩ 100 2).2.completed_days.Sorted (· < ·) ∧
    ((2 : Int) ∈ (completeDayPure ⟨0, 0, 0⟩ ⟨4, [1, 3], some 99⟩ 100 2).2.completed_days ↔
      ((2 : Int) ∈ (⟨4, [1, 3], some 99⟩ : ProgressRec).completed_days ∨ (2 : Int) = 2)) ∧
    (runCalls ⟨0, 0, 0⟩ freshProgress
      [(100, 1), (101, 3), (102, 2)]).2.completed_days.Sorted (· < ·) :=
  ⟨(completedDays_strictly_increasing ⟨0, 0, 0⟩ ⟨4, [1, 3], some 99⟩ 100 2 (by decide)).1,
   (completedDays_strictly_increasing ⟨0, 0, 0⟩ ⟨4, [1, 3], some 99⟩ 100 2 (by decide)).2.1 2,
   (completedDays_strictly_increasing ⟨0, 0, 0⟩ ⟨4, [1, 3], some 99⟩ 100 2 (by decide)).2.2
     [(100, 1), (101, 3), (102, 2)]⟩

/-- Claim C7: when no User document matches the given email, complete_day
fails with the 404 "User not found" error and issues no store writes at
all — no User document is changed and no Progress document is created or
updated. -/
theorem userNotFound_no_mutation (prog : Option ProgressRec) (today day : Int) :
    (completeDay none prog today day).1 = Except.error "User not found" ∧
    (completeDay none prog today day).2 = [] :=
  ⟨rfl, rfl⟩

/-- Claim C8: RecordCompletion is a pure deterministic state transition:
two runs with identical previous user stats, identical previous progress
record, the same today and the same input day produce identical outcomes
and identical store writes. -/
theorem recordCompletion_deterministic (u₁ u₂ : Option UserStats)
    (p₁ p₂ : Option ProgressRec) (t₁ t₂ d₁ d₂ : Int)
    (hu : u₁ = u₂) (hp : p₁ = p₂) (ht : t₁ = t₂) (hd : d₁ = d₂) :
    completeDay u₁ p₁ t₁ d₁ = completeDay u₂ p₂ t₂ d₂ := by
  subst hu; subst hp; subst ht; subst hd; rfl

/-- Witness for C8 at a concrete pair of identical runs. -/
theorem recordCompletion_deterministic_witness :
    completeDay (some ⟨0, 0, 0⟩) (some freshProgress) 100 1 =
      completeDay (some ⟨0, 0, 0⟩) (some freshProgress) 100 1 :=
  recordCompletion_deterministic (some ⟨0, 0, 0⟩) (some ⟨0, 0, 0⟩)
    (some freshProgress) (some freshProgress) 100 100 1 1 rfl rfl rfl rfl

/-- Recognizes a User-document update among the store writes. -/
def isUserUpdate : StoreWrite → Bool
  | .updateUser _ => true
  | _ => false

/-- Recognizes a Progress-document update among the store writes. -/
def isProgressUpdate : StoreWrite → Bool
  | .updateProgress _ => true
  | _ => false

/-- Recognizes a Progress-document insert among the store writes. -/
def isProgressInsert : StoreWrite → Bool
  | .insertProgress _ => true
  | _ => false

/-- Counterexample to C9 as stated: when no Progress record exists yet, the
call issues three store writes (the lazy insert of the fresh Progress
record plus the two updates), not exactly two. -/
theorem two_writes_counterexample :
    ¬((completeDay (some ⟨0, 0, 0⟩) none 100 1).2.length = 2) := by
  decide

/-- Claim C9 (amended): a successful complete_day call issues exactly one
User update and exactly one Progress update; when a Progress record already
exists these are the only writes (two in total), and when none exists the
call additionally issues exactly one insert of the fresh Progress record
(three writes in total). -/
theorem writes_per_call (u : UserStats) (prog : Option ProgressRec) (today day : Int) :
    ((completeDay (some u) prog today day).2.countP isUserUpdate = 1) ∧
    ((completeDay (some u) prog today day).2.countP isProgressUpdate = 1) ∧
    ((completeDay (some u) prog today day).2.countP isProgressInsert =
      if prog.isSome then 0 else 1) ∧
    ((completeDay (some u) prog today day).2.length = if prog.isSome then 2 else 3) := by
  cases prog <;> exact ⟨rfl, rfl, rfl, rfl⟩
